import Mathlib

/-!
Verification of the floorplan feature-extraction pipeline in
`apps/api/src/detect_floorplan.py`.

The pipeline's own logic (thresholding post-processing, point
classification, the exhaustive corner scan, the clustering wrapper) is
embedded directly.  Calls into external libraries (`cv2`, `skimage`,
`sklearn`) are modelled from those libraries' documented behaviour and
are clearly marked; where a claim concerns only the repository's own
control flow, the external call is abstracted as a function parameter.
-/

namespace DetectFloorplan

/-- Classification result of `classify_point`. -/
inductive PointType where
  | endpoint
  | corner
  | t_junction
  | none
deriving DecidableEq, Repr

/-- A 3×3 pixel neighborhood, `pij` at row `i`, column `j` (row-major,
as `neighborhood[i, j]` in the Python code). Pixel values are `uint8`
intensities, represented as `Nat`. -/
structure Nbhd where
  p00 : Nat
  p01 : Nat
  p02 : Nat
  p10 : Nat
  p11 : Nat
  p12 : Nat
  p20 : Nat
  p21 : Nat
  p22 : Nat
deriving DecidableEq, Repr

/-- One entry of `pattern = (neighborhood == 255).astype(int)`. -/
def b2i (v : Nat) : Nat := if v == 255 then 1 else 0

/-- The loop `for i in range(8): if pixels[i] == 0 and pixels[i+1] == 1`:
counts 0→1 transitions over consecutive pairs of the list. -/
def countTransitions : List Nat → Nat
  | a :: b :: rest => (if a = 0 ∧ b = 1 then 1 else 0) + countTransitions (b :: rest)
  | _ => 0

/-- Body of `classify_point` after binarization: operates on the 0/1
`pattern` values `qij = pattern[i, j]`. -/
def classify_pattern (q00 q01 q02 q10 q11 q12 q20 q21 q22 : Nat) : PointType :=
  let center := q11
  if center = 0 then .none
  else
    let neighbors := (q00 + q01 + q02 + q10 + q11 + q12 + q20 + q21 + q22) - center
    let pixels := [q01, q02, q12, q22, q21, q20, q10, q00]
    let transitions := countTransitions (pixels ++ [q01])
    if neighbors = 1 then .endpoint
    else if transitions = 2 then
      if neighbors = 2 then .corner
      else if neighbors = 3 then .t_junction
      else .none
    else .none

/-- `classify_point(neighborhood)` from `detect_floorplan.py` lines 87–121:
binarize the neighborhood with `== 255`, then classify by neighbor count
and crossing number. -/
def classify_point (nb : Nbhd) : PointType :=
  classify_pattern (b2i nb.p00) (b2i nb.p01) (b2i nb.p02)
    (b2i nb.p10) (b2i nb.p11) (b2i nb.p12)
    (b2i nb.p20) (b2i nb.p21) (b2i nb.p22)

/-- Inject a binary (Bool) 3×3 neighborhood into pixel values: `true`
becomes foreground intensity 255, `false` background 0. -/
def bitsToNbhd (b00 b01 b02 b10 b11 b12 b20 b21 b22 : Bool) : Nbhd :=
  ⟨(if b00 then 255 else 0), (if b01 then 255 else 0), (if b02 then 255 else 0),
   (if b10 then 255 else 0), (if b11 then 255 else 0), (if b12 then 255 else 0),
   (if b20 then 255 else 0), (if b21 then 255 else 0), (if b22 then 255 else 0)⟩

/-- `N`: the number of foreground neighbors among the 8 surrounding cells,
computed as in the code (`np.sum(pattern) - center`). -/
def nbhdN (nb : Nbhd) : Nat :=
  (b2i nb.p00 + b2i nb.p01 + b2i nb.p02 + b2i nb.p10 + b2i nb.p11 + b2i nb.p12 +
    b2i nb.p20 + b2i nb.p21 + b2i nb.p22) - b2i nb.p11

/-- `T`: the number of background→foreground transitions walking the 8
neighbors in clockwise order with wrap-around, in the code's order
`[p01, p02, p12, p22, p21, p20, p10, p00]`. -/
def nbhdT (nb : Nbhd) : Nat :=
  countTransitions
    [b2i nb.p01, b2i nb.p02, b2i nb.p12, b2i nb.p22,
     b2i nb.p21, b2i nb.p20, b2i nb.p10, b2i nb.p00, b2i nb.p01]

/-- The classification rule exactly as the spec states it (spec-side
definition, for comparison with `classify_point`): background center
gives `none`; otherwise, with `N` the foreground-neighbor count and `T`
the clockwise background→foreground transition count, `endpoint` iff
N = 1 (regardless of T), `corner` iff N ≠ 1 and T = 2 and N = 2,
`t_junction` iff N ≠ 1 and T = 2 and N = 3, and `none` in every other
case (in a binary neighborhood, a cell is foreground iff it is 255). -/
def crossing_number_rule (nb : Nbhd) : PointType :=
  if nb.p11 ≠ 255 then .none
  else if nbhdN nb = 1 then .endpoint
  else if nbhdT nb = 2 ∧ nbhdN nb = 2 then .corner
  else if nbhdT nb = 2 ∧ nbhdN nb = 3 then .t_junction
  else .none

/-- Claim C1: on every 3×3 binary neighborhood (all cells 0 or 255),
`classify_point` computes exactly the crossing-number rule of the spec:
proved by exhaustive case analysis over all 512 binary neighborhoods. -/
theorem c1_classify_point_crossing_number
    (b00 b01 b02 b10 b11 b12 b20 b21 b22 : Bool) :
    classify_point (bitsToNbhd b00 b01 b02 b10 b11 b12 b20 b21 b22) =
      crossing_number_rule (bitsToNbhd b00 b01 b02 b10 b11 b12 b20 b21 b22) := by
  revert b00 b01 b02 b10 b11 b12 b20 b21 b22
  decide

/-- Map a function over all nine values of a neighborhood. -/
def nbMap (f : Nat → Nat) (nb : Nbhd) : Nbhd :=
  ⟨f nb.p00, f nb.p01, f nb.p02, f nb.p10, f nb.p11, f nb.p12, f nb.p20, f nb.p21, f nb.p22⟩

/-- `b2i` only tests equality with 255, so collapsing every non-255 value
to 0 leaves it unchanged. -/
theorem b2i_collapse (v : Nat) : b2i (if v = 255 then 255 else 0) = b2i v := by
  by_cases h : v = 255 <;> simp [b2i, h]

/-- `classify_pattern` returns `none` whenever the binarized center is 0. -/
theorem classify_pattern_center_zero (q00 q01 q02 q10 q12 q20 q21 q22 : Nat) :
    classify_pattern q00 q01 q02 q10 0 q12 q20 q21 q22 = .none := rfl

/-- Claim C10: `classify_point` counts a cell as foreground iff its value
is exactly 255: a center that is not 255 (even if nonzero) yields `none`,
and replacing every non-255 value by 0 (background) does not change the
classification. -/
theorem c10_foreground_is_exactly_255 (nb : Nbhd) :
    (nb.p11 ≠ 255 → classify_point nb = .none) ∧
    classify_point nb = classify_point (nbMap (fun v => if v = 255 then 255 else 0) nb) := by
  constructor
  · intro h
    have hc : b2i nb.p11 = 0 := by simp [b2i, h]
    unfold classify_point
    rw [hc]
    exact classify_pattern_center_zero _ _ _ _ _ _ _ _
  · unfold classify_point nbMap
    simp only [b2i_collapse]

/-- Witness for C10: a neighborhood whose center is 254 (nonzero but not
255) classifies as `none`. -/
theorem c10_witness :
    classify_point ⟨255, 255, 1, 0, 254, 255, 0, 0, 0⟩ = PointType.none :=
  (c10_foreground_is_exactly_255 ⟨255, 255, 1, 0, 254, 255, 0, 0, 0⟩).1 (by decide)

/-- A grayscale image: height, width, and a pixel function (row `y`,
column `x`); values are `uint8` intensities represented as `Nat`. -/
structure Img where
  h : Nat
  w : Nat
  pix : Nat → Nat → Nat

/-- Model of one pixel of `cv2.threshold(src, thresh, maxval,
cv2.THRESH_BINARY_INV)`: the destination is 0 where `src > thresh` and
`maxval` elsewhere (OpenCV's documented THRESH_BINARY_INV rule). -/
def threshBinaryInvPix (threshVal maxval v : Nat) : Nat :=
  if v > threshVal then 0 else maxval

/-- Model of `cv2.threshold(gray, thresh_val, 255, cv2.THRESH_BINARY_INV)`
applied to a whole image (line 62 of `detect_floorplan.py`). -/
def cv2_threshold_inv (img : Img) (threshVal maxval : Nat) : Img :=
  ⟨img.h, img.w, fun y x => threshBinaryInvPix threshVal maxval (img.pix y x)⟩

/-- Model of `cv2.resize(src, (dsize_w, dsize_h),
interpolation=cv2.INTER_NEAREST)`: the output has exactly the requested
dimensions and each output pixel is sampled from a source pixel; the
nearest-neighbor index arithmetic is modelled as floor scaling. -/
def cv2_resize_nearest (img : Img) (dsize_w dsize_h : Nat) : Img :=
  ⟨dsize_h, dsize_w, fun y x => img.pix (y * img.h / dsize_h) (x * img.w / dsize_w)⟩

/-- The module-level availability flags set by the guarded imports at the
top of `detect_floorplan.py` (lines 7–20). -/
structure ThinEnv where
  ximgproc_available : Bool
  skimage_available : Bool
deriving DecidableEq, Repr

/-- Model of the module import section (lines 7–22): the `cv2.ximgproc`
and `skimage` imports are wrapped in try/except and only set flags —
their absence never raises; only the unguarded `sklearn` import (line 22)
can fail at import time. -/
def module_import (ximgprocPresent skimagePresent sklearnPresent : Bool) :
    Except String ThinEnv :=
  if sklearnPresent then .ok ⟨ximgprocPresent, skimagePresent⟩
  else .error "ModuleNotFoundError: No module named sklearn"

/-- `morphological_thinning(binary_img)` (lines 24–45): dispatch to
`cv2.ximgproc.thinning` (`thinX`) or `skimage` skeletonize (`thinS`),
both external and abstracted as function parameters; raise `ImportError`
when neither is available. -/
def morphological_thinning (env : ThinEnv) (thinX thinS : Img → Img) (img : Img) :
    Except String Img :=
  if env.ximgproc_available then .ok (thinX img)
  else if env.skimage_available then .ok (thinS img)
  else .error "No available thinning method. Install opencv-contrib-python or scikit-image."

/-- Steps 5–6 of `skeletonize_image` (lines 76–85): resize the thinned
image back to the original dimensions when they differ (nearest-neighbor),
then force every positive pixel to 255 (the numpy masked assignment on
line 83). -/
def skel_restore (gray skel : Img) : Img :=
  let resized :=
    if skel.h ≠ gray.h ∨ skel.w ≠ gray.w then cv2_resize_nearest skel gray.w gray.h
    else skel
  ⟨resized.h, resized.w, fun y x =>
    if resized.pix y x > 0 then 255 else resized.pix y x⟩

/-- `skeletonize_image(img_path, thresh_val)` (lines 47–85) after image
decoding: `gray?` is the result of `cv2.imread` (`none` when loading
failed, which raises `ValueError`); `openF` and `closeF` model the
external `cv2.morphologyEx` opening and closing (line 66–70); thinning
is dispatched through `morphological_thinning`; finally the skeleton is
restored to the original dimensions and binarized to 0/255. -/
def skeletonize_image (env : ThinEnv) (thinX thinS openF closeF : Img → Img)
    (gray? : Option Img) (threshVal : Nat) : Except String Img :=
  match gray? with
  | Option.none => .error "Could not open or find the image"
  | Option.some gray =>
    let binary := cv2_threshold_inv gray threshVal 255
    let opened := openF binary
    let closed := closeF opened
    (morphological_thinning env thinX thinS closed).map (skel_restore gray)

/-- Claim C2 counterexample: at threshold T = 100, a pixel whose
intensity is exactly 100 is marked foreground (255) by the binarization
step, although it is not strictly less than T — so "foreground iff
intensity < T" is false. -/
theorem c2_counterexample :
    (cv2_threshold_inv ⟨1, 1, fun _ _ => 100⟩ 100 255).pix 0 0 = 255 ∧
    ¬((100 : Nat) < 100) := by
  exact ⟨rfl, by omega⟩

/-- Claim C2 (amended): the binarization step marks a pixel foreground
(255) iff its intensity is less than or equal to the threshold; a pixel
with intensity exactly T is foreground. -/
theorem c2_threshold_foreground_iff_le (img : Img) (threshVal y x : Nat) :
    (cv2_threshold_inv img threshVal 255).pix y x = 255 ↔ img.pix y x ≤ threshVal := by
  simp only [cv2_threshold_inv, threshBinaryInvPix]
  split <;> omega

/-- Claim C4 counterexample: with neither thinning library present (and
`sklearn` present), module import succeeds without raising — so startup
is not where the unavailability failure surfaces — and the first
invocation of `morphological_thinning` raises the ImportError. -/
theorem c4_counterexample :
    module_import false false true = Except.ok ⟨false, false⟩ ∧
    morphological_thinning ⟨false, false⟩ id id ⟨1, 1, fun _ _ => 0⟩ =
      Except.error
        "No available thinning method. Install opencv-contrib-python or scikit-image." :=
  ⟨rfl, rfl⟩

/-- Claim C4 (amended): when no thinning implementation is available,
module import (process startup) still succeeds, and the unavailability
error is raised per call: every invocation of `morphological_thinning`
(hence the first one, inside a pipeline call such as `skeletonize_image`)
fails with the ImportError. -/
theorem c4_thinning_unavailable_is_per_call_error (thinX thinS : Img → Img) (img : Img) :
    module_import false false true = Except.ok ⟨false, false⟩ ∧
    morphological_thinning ⟨false, false⟩ thinX thinS img =
      Except.error
        "No available thinning method. Install opencv-contrib-python or scikit-image." :=
  ⟨rfl, rfl⟩

/-- Restoring a skeleton always yields the original image's dimensions:
either the thinned image already has them, or it is resized to exactly
them. -/
theorem skel_restore_dims (gray s : Img) :
    (skel_restore gray s).h = gray.h ∧ (skel_restore gray s).w = gray.w := by
  unfold skel_restore cv2_resize_nearest
  by_cases hc : s.h ≠ gray.h ∨ s.w ≠ gray.w
  · simp [hc]
  · push_neg at hc
    simp [hc.1, hc.2]

/-- Claim C6: for every successfully loaded raster, the skeleton returned
by `skeletonize_image` has exactly the original height and width, for any
behaviour of the external opening/closing/thinning steps (the
nearest-neighbor resize restores the scale when thinning changed it). -/
theorem c6_skeleton_dims_eq_original (env : ThinEnv)
    (thinX thinS openF closeF : Img → Img) (gray : Img) (threshVal : Nat) (skel : Img)
    (h : skeletonize_image env thinX thinS openF closeF (some gray) threshVal =
      Except.ok skel) :
    skel.h = gray.h ∧ skel.w = gray.w := by
  simp only [skeletonize_image] at h
  cases hm : morphological_thinning env thinX thinS
      (closeF (openF (cv2_threshold_inv gray threshVal 255))) with
  | error e => rw [hm] at h; simp [Except.map] at h
  | ok s =>
    rw [hm] at h
    simp only [Except.map, Except.ok.injEq] at h
    subst h
    exact skel_restore_dims gray s

/-- Example raster for the skeletonization witnesses. -/
def grayEx : Img := ⟨2, 3, fun _ _ => 0⟩

/-- Example external thinning step that changes scale (outputs 1×1). -/
def thinEx : Img → Img := fun _ => ⟨1, 1, fun _ _ => 7⟩

/-- Witness for C6: a concrete run whose thinning output is 1×1 still
yields a 2×3 skeleton. -/
theorem c6_witness :
    (skel_restore grayEx (thinEx (id (id (cv2_threshold_inv grayEx 100 255))))).h = grayEx.h ∧
    (skel_restore grayEx (thinEx (id (id (cv2_threshold_inv grayEx 100 255))))).w = grayEx.w :=
  c6_skeleton_dims_eq_original ⟨true, false⟩ thinEx thinEx id id grayEx 100 _ rfl

/-- Forcing positives to 255 leaves only the values 0 and 255. -/
theorem clamp_binary (v : Nat) :
    (if v > 0 then 255 else v) = 0 ∨ (if v > 0 then 255 else v) = 255 := by
  by_cases h : v > 0
  · simp [h]
  · simp [h]; omega

/-- Claim C7: every pixel of a skeleton returned by `skeletonize_image`
is exactly 0 or exactly 255, for any behaviour of the external
opening/closing/thinning steps. -/
theorem c7_skeleton_pixels_binary (env : ThinEnv)
    (thinX thinS openF closeF : Img → Img) (gray? : Option Img) (threshVal : Nat)
    (skel : Img) (y x : Nat)
    (h : skeletonize_image env thinX thinS openF closeF gray? threshVal = Except.ok skel) :
    skel.pix y x = 0 ∨ skel.pix y x = 255 := by
  cases gray? with
  | none => simp [skeletonize_image] at h
  | some gray =>
    simp only [skeletonize_image] at h
    cases hm : morphological_thinning env thinX thinS
        (closeF (openF (cv2_threshold_inv gray threshVal 255))) with
    | error e => rw [hm] at h; simp [Except.map] at h
    | ok s =>
      rw [hm] at h
      simp only [Except.map, Except.ok.injEq] at h
      subst h
      exact clamp_binary _

/-- Witness for C7: in a concrete run, the top-left skeleton pixel is 0
or 255. -/
theorem c7_witness :
    (skel_restore grayEx (thinEx (id (id (cv2_threshold_inv grayEx 100 255))))).pix 0 0 = 0 ∨
    (skel_restore grayEx (thinEx (id (id (cv2_threshold_inv grayEx 100 255))))).pix 0 0 = 255 :=
  c7_skeleton_pixels_binary ⟨true, false⟩ thinEx thinEx id id (some grayEx) 100 _ 0 0 rfl

/-- A 2-D point (x, y). The Python code stores integer pixel coordinates;
clustering converts them to floats, but the claims below only concern
counts, so integer coordinates suffice. -/
abbrev Pt := Int × Int

/-- Model of `KMeans(n_clusters=k, random_state=42).fit(X).cluster_centers_`
from scikit-learn: the estimator validates `n_clusters >= 1` and
`n_samples >= n_clusters` (raising ValueError otherwise) and always
returns exactly `n_clusters` centers. The centroid arithmetic itself is
external and irrelevant to the counting claims, so the centers' values
are abstracted (here: the first `k` points). -/
def kmeans_cluster_centers (k : Nat) (pts : List Pt) : Except String (List Pt) :=
  if k < 1 then .error "n_clusters should be an int in the range of 1 to n_samples"
  else if pts.length < k then .error "n_samples should be >= n_clusters"
  else .ok (pts.take k)

/-- `cluster_points(points, num_clusters)` (lines 163–173): empty input
returns an empty list; otherwise fit KMeans with
`k = min(num_clusters, len(points))` and return the cluster centers. -/
def cluster_points (points : List Pt) (num_clusters : Nat) : Except String (List Pt) :=
  if points.length = 0 then .ok []
  else kmeans_cluster_centers (min num_clusters points.length) points

/-- Length of a successful result, `none` when the call raised. -/
def okLength (r : Except String (List Pt)) : Option Nat :=
  match r with
  | .ok cs => some cs.length
  | .error _ => Option.none

/-- Claim C3 counterexample: with one input point and k = 0 the code does
not return 0 centers — KMeans rejects `n_clusters = 0` and the call
raises, so the length contract fails for the non-negative integer 0. -/
theorem c3_counterexample :
    cluster_points [((0 : Int), (0 : Int))] 0 =
      Except.error "n_clusters should be an int in the range of 1 to n_samples" := rfl

/-- Claim C3 (amended): for every positive k — and for k = 0 when the
input is empty — `cluster_points` returns a list of cluster centers of
length `min k (number of points)`; for k = 0 with nonempty input the
underlying KMeans fit raises instead of returning. -/
theorem c3_cluster_count_min (points : List Pt) (k : Nat)
    (h : 1 ≤ k ∨ points = []) :
    okLength (cluster_points points k) = some (min k points.length) := by
  rcases h with hk | hempty
  · cases points with
    | nil => simp [cluster_points, okLength]
    | cons p ps =>
      have hlen : 0 < (p :: ps).length := by simp
      have hne : (p :: ps).length ≠ 0 := Nat.pos_iff_ne_zero.mp hlen
      have hmin1 : 1 ≤ min k (p :: ps).length := le_min hk hlen
      have hminle : min k (p :: ps).length ≤ (p :: ps).length := min_le_right _ _
      simp only [cluster_points, kmeans_cluster_centers, hne, if_false]
      rw [if_neg (by omega), if_neg (by omega)]
      simp [okLength, List.length_take, Nat.min_eq_left hminle]
  · subst hempty
    simp [cluster_points, okLength]

/-- Witness for C3: two points with k = 1 yield exactly one center. -/
theorem c3_witness :
    okLength (cluster_points [((0 : Int), (0 : Int)), ((4 : Int), (4 : Int))] 1) =
      some (min 1 2) :=
  c3_cluster_count_min [((0 : Int), (0 : Int)), ((4 : Int), (4 : Int))] 1 (Or.inl (by omega))

/-- Claim C8: clustering an empty point sequence returns an empty
sequence, for every non-negative k, and never raises. -/
theorem c8_cluster_empty_ok (k : Nat) :
    cluster_points [] k = Except.ok [] := rfl

/-- The 3×3 neighborhood `skel[y-1:y+2, x-1:x+2]` around an interior
pixel (line 153). -/
def nbhdAt (skel : Img) (y x : Nat) : Nbhd :=
  ⟨skel.pix (y-1) (x-1), skel.pix (y-1) x, skel.pix (y-1) (x+1),
   skel.pix y (x-1), skel.pix y x, skel.pix y (x+1),
   skel.pix (y+1) (x-1), skel.pix (y+1) x, skel.pix (y+1) (x+1)⟩

/-- The duplicate-suppression test of lines 157–158: some previously
accepted point (px, py) is closer than `minDist` on the x axis and
closer than `minDist` on the y axis (independent per-axis checks). -/
def tooClose (minDist x y : Nat) (pts : List Pt) : Bool :=
  pts.any fun p =>
    decide (((x : Int) - p.1).natAbs < minDist) &&
      decide (((y : Int) - p.2).natAbs < minDist)

/-- One iteration of the exhaustive second pass of `detect_corners`
(lines 150–159), at loop coordinates `(y, x)` with accumulated points
`acc`: append `(x, y)` when the pixel is foreground, classifies as
endpoint or t_junction, and no accepted point is too close. -/
def pass2Step (skel : Img) (minDist : Nat) (acc : List Pt) (yx : Nat × Nat) : List Pt :=
  let y := yx.1
  let x := yx.2
  if skel.pix y x = 255 then
    if classify_point (nbhdAt skel y x) = .endpoint ∨
        classify_point (nbhdAt skel y x) = .t_junction then
      if ¬ tooClose minDist x y acc then acc ++ [((x : Int), (y : Int))] else acc
    else acc
  else acc

/-- The interior loop coordinates `(y, x)` for `y in range(1, height-1)`,
`x in range(1, width-1)`, in row-major order. -/
def interiorCoords (h w : Nat) : List (Nat × Nat) :=
  (List.range (h - 2)).flatMap fun i => (List.range (w - 2)).map fun j => (i + 1, j + 1)

/-- The full exhaustive second pass of `detect_corners`, folded from the
points `init` accepted by the sparse first pass. -/
def detect_corners_pass2 (skel : Img) (minDist : Nat) (init : List Pt) : List Pt :=
  (interiorCoords skel.h skel.w).foldl (pass2Step skel minDist) init

/-- `tooClose` is false exactly when every previously accepted point is
at distance ≥ minDist on at least one axis. -/
theorem tooClose_eq_false_iff (minDist x y : Nat) (pts : List Pt) :
    tooClose minDist x y pts = false ↔
      ∀ p ∈ pts,
        ¬(((x : Int) - p.1).natAbs < minDist ∧ ((y : Int) - p.2).natAbs < minDist) := by
  rw [← Bool.not_eq_true]
  simp [tooClose, List.any_eq_true, not_and]

/-- Claim C5: in the exhaustive second pass, a foreground pixel is
appended iff it classifies as endpoint or t_junction and no previously
accepted point (px, py) satisfies both |x - px| < minDist and
|y - py| < minDist (independent per-axis suppression); otherwise the
accumulator is unchanged. -/
theorem c5_pass2_append_iff (skel : Img) (minDist : Nat) (acc : List Pt) (y x : Nat)
    (hfg : skel.pix y x = 255) :
    (pass2Step skel minDist acc (y, x) = acc ∨
     pass2Step skel minDist acc (y, x) = acc ++ [((x : Int), (y : Int))]) ∧
    (pass2Step skel minDist acc (y, x) = acc ++ [((x : Int), (y : Int))] ↔
      ((classify_point (nbhdAt skel y x) = .endpoint ∨
        classify_point (nbhdAt skel y x) = .t_junction) ∧
       ∀ p ∈ acc,
         ¬(((x : Int) - p.1).natAbs < minDist ∧
           ((y : Int) - p.2).natAbs < minDist))) := by
  have hne : acc ++ [((x : Int), (y : Int))] ≠ acc := by
    intro hcontra
    have hlen := congrArg List.length hcontra
    simp at hlen
  simp only [pass2Step]
  rw [if_pos hfg]
  by_cases ht : classify_point (nbhdAt skel y x) = PointType.endpoint ∨
      classify_point (nbhdAt skel y x) = PointType.t_junction
  · rw [if_pos ht]
    cases htc : tooClose minDist x y acc with
    | false =>
      rw [if_pos (show ¬(false : Bool) = true by simp)]
      exact ⟨Or.inr rfl,
        ⟨fun _ => ⟨ht, (tooClose_eq_false_iff minDist x y acc).mp htc⟩, fun _ => rfl⟩⟩
    | true =>
      rw [if_neg (show ¬¬(true : Bool) = true by simp)]
      refine ⟨Or.inl rfl, ⟨fun hcontra => absurd hcontra.symm hne, fun hcond => ?_⟩⟩
      have : tooClose minDist x y acc = false :=
        (tooClose_eq_false_iff minDist x y acc).mpr hcond.2
      rw [htc] at this
      exact absurd this (by simp)
  · rw [if_neg ht]
    exact ⟨Or.inl rfl,
      ⟨fun hcontra => absurd hcontra.symm hne, fun hcond => absurd hcond.1 ht⟩⟩

/-- Example 3×3 skeleton with a vertical two-pixel stub: the center pixel
has exactly one foreground neighbor, so it is an endpoint. -/
def skelEx : Img :=
  ⟨3, 3, fun y x => if (y = 1 ∧ x = 1) ∨ (y = 0 ∧ x = 1) then 255 else 0⟩

/-- Witness for C5: on the concrete skeleton, the interior endpoint pixel
(1, 1) is appended to an empty accumulator. -/
theorem c5_witness :
    pass2Step skelEx 10 [] (1, 1) = [] ++ [((1 : Int), (1 : Int))] :=
  (c5_pass2_append_iff skelEx 10 [] 1 1 (by decide)).2.mpr
    ⟨Or.inl (by decide), by simp⟩

/-- A binary bitmap as rows of Booleans (true = foreground). -/
abbrev Bitmap := List (List Bool)

/-- Number of foreground pixels in one row. -/
def rowFg : List Bool → Nat
  | [] => 0
  | b :: t => (if b then 1 else 0) + rowFg t

/-- Number of foreground pixels in a bitmap. -/
def countFg : Bitmap → Nat
  | [] => 0
  | r :: t => rowFg r + countFg t

/-- Rows have the same length and the first is pointwise below the
second (foreground only where the second has foreground). -/
def rowLeB : List Bool → List Bool → Bool
  | [], [] => true
  | a :: as, b :: bs => (!a || b) && rowLeB as bs
  | _, _ => false

/-- Bitmaps have the same shape and the first is pointwise below the
second. -/
def bmLeB : Bitmap → Bitmap → Bool
  | [], [] => true
  | r :: rs, s :: ss => rowLeB r s && bmLeB rs ss
  | _, _ => false

/-- A single thinning pass in the sense of §4.3 of the spec: examining
each foreground pixel's neighborhood and removing some pixels — so the
output has the same shape and foreground only where the input had
foreground. -/
def RemovalPass (p : Bitmap → Bitmap) : Prop :=
  ∀ b, bmLeB (p b) b = true

/-- Modelled from the spec: the thinning algorithm itself
(`cv2.ximgproc.thinning` / `skimage.morphology.skeletonize`, both
external to the repository) is specified as "iterative boundary-pixel
removal — … repeat until no pixel is removed in a full pass". This is
the iteration, fuel-indexed for termination: stop as soon as a full pass
removes nothing. -/
def thinFuel (p : Bitmap → Bitmap) : Nat → Bitmap → Bitmap
  | 0, b => b
  | n + 1, b => if p b = b then b else thinFuel p n (p b)

/-- Modelled from the spec: iterative thinning run to its fixpoint. A
budget of one more pass than there are foreground pixels always
suffices, because every non-final pass removes at least one pixel. -/
def thinning (p : Bitmap → Bitmap) (b : Bitmap) : Bitmap :=
  thinFuel p (countFg b + 1) b

/-- Pointwise-below rows have no more foreground. -/
theorem rowFg_le_of_rowLeB {a b : List Bool} (h : rowLeB a b = true) :
    rowFg a ≤ rowFg b := by
  induction a generalizing b with
  | nil =>
    cases b with
    | nil => exact Nat.le_refl 0
    | cons c cs => simp [rowLeB] at h
  | cons x xs ih =>
    cases b with
    | nil => simp [rowLeB] at h
    | cons c cs =>
      simp only [rowLeB, Bool.and_eq_true] at h
      have hrec := ih h.2
      have hxc := h.1
      cases x <;> cases c <;> simp [rowFg] at hxc ⊢ <;> omega

/-- A row strictly pointwise below a distinct row has strictly less
foreground. -/
theorem rowFg_lt_of_rowLeB_ne {a b : List Bool} (h : rowLeB a b = true) (hne : a ≠ b) :
    rowFg a < rowFg b := by
  induction a generalizing b with
  | nil =>
    cases b with
    | nil => exact absurd rfl hne
    | cons c cs => simp [rowLeB] at h
  | cons x xs ih =>
    cases b with
    | nil => simp [rowLeB] at h
    | cons c cs =>
      simp only [rowLeB, Bool.and_eq_true] at h
      by_cases hx : x = c
      · subst hx
        have hxs : xs ≠ cs := fun hcontra => hne (by rw [hcontra])
        have hrec := ih h.2 hxs
        cases x <;> simp [rowFg] <;> omega
      · have hle := rowFg_le_of_rowLeB h.2
        have hxc := h.1
        cases x <;> cases c
        · exact absurd rfl hx
        · simp [rowFg]; omega
        · simp at hxc
        · exact absurd rfl hx

/-- A bitmap pointwise below another has no more foreground. -/
theorem countFg_le_of_bmLeB {a b : Bitmap} (h : bmLeB a b = true) :
    countFg a ≤ countFg b := by
  induction a generalizing b with
  | nil =>
    cases b with
    | nil => exact Nat.le_refl 0
    | cons s ss => simp [bmLeB] at h
  | cons r rs ih =>
    cases b with
    | nil => simp [bmLeB] at h
    | cons s ss =>
      simp only [bmLeB, Bool.and_eq_true] at h
      have h1 := rowFg_le_of_rowLeB h.1
      have h2 := ih h.2
      simp only [countFg]
      omega

/-- A bitmap strictly pointwise below a distinct bitmap has strictly
less foreground: a non-trivial removal pass removes at least one pixel. -/
theorem countFg_lt_of_bmLeB_ne {a b : Bitmap} (h : bmLeB a b = true) (hne : a ≠ b) :
    countFg a < countFg b := by
  induction a generalizing b with
  | nil =>
    cases b with
    | nil => exact absurd rfl hne
    | cons s ss => simp [bmLeB] at h
  | cons r rs ih =>
    cases b with
    | nil => simp [bmLeB] at h
    | cons s ss =>
      simp only [bmLeB, Bool.and_eq_true] at h
      by_cases hr : r = s
      · subst hr
        have hrs : rs ≠ ss := fun hcontra => hne (by rw [hcontra])
        have h2 := ih h.2 hrs
        have h1 := rowFg_le_of_rowLeB h.1
        simp only [countFg]
        omega
      · have h1 := rowFg_lt_of_rowLeB_ne h.1 hr
        have h2 := countFg_le_of_bmLeB h.2
        simp only [countFg]
        omega

/-- With enough fuel (more than the foreground count), the loop reaches
a fixpoint of the pass. -/
theorem thinFuel_fixpoint (p : Bitmap → Bitmap) (hp : RemovalPass p) :
    ∀ fuel b, countFg b < fuel → p (thinFuel p fuel b) = thinFuel p fuel b := by
  intro fuel
  induction fuel with
  | zero => intro b hb; exact absurd hb (Nat.not_lt_zero _)
  | succ n ih =>
    intro b hb
    by_cases he : p b = b
    · simp [thinFuel, he]
    · have hlt : countFg (p b) < countFg b := countFg_lt_of_bmLeB_ne (hp b) he
      have hstep : thinFuel p (n + 1) b = thinFuel p n (p b) := by simp [thinFuel, he]
      rw [hstep]
      exact ih (p b) (by omega)

/-- The loop is inert on a fixpoint of the pass, whatever the fuel. -/
theorem thinFuel_of_fixpoint (p : Bitmap → Bitmap) (b : Bitmap) (hb : p b = b) :
    ∀ n, thinFuel p n b = b
  | 0 => rfl
  | n + 1 => by simp [thinFuel, hb]

/-- Rows are pointwise below themselves. -/
theorem rowLeB_refl (r : List Bool) : rowLeB r r = true := by
  induction r with
  | nil => rfl
  | cons a as ih => cases a <;> simp [rowLeB, ih]

/-- Bitmaps are pointwise below themselves. -/
theorem bmLeB_refl (b : Bitmap) : bmLeB b b = true := by
  induction b with
  | nil => rfl
  | cons r rs ih => simp [bmLeB, rowLeB_refl, ih]

/-- Claim C9: the skeletonizing (thinning) step is idempotent — for any
removal pass `p` and any bitmap, running the iterative thinning on its
own output returns that output unchanged, because the output is already
a fixpoint of the pass. -/
theorem c9_thinning_idempotent (p : Bitmap → Bitmap) (b : Bitmap) (hp : RemovalPass p) :
    thinning p (thinning p b) = thinning p b := by
  have hfix : p (thinning p b) = thinning p b :=
    thinFuel_fixpoint p hp (countFg b + 1) b (by omega)
  exact thinFuel_of_fixpoint p (thinning p b) hfix (countFg (thinning p b) + 1)

/-- Witness for C9: the identity pass removes nothing, hence is a
removal pass, and thinning with it is idempotent on a concrete bitmap. -/
theorem c9_witness :
    thinning id (thinning id [[true, false], [true, true]]) =
      thinning id [[true, false], [true, true]] :=
  c9_thinning_idempotent id [[true, false], [true, true]] (fun b => bmLeB_refl b)

end DetectFloorplan
